import Mathlib

/-!
# tgpunch: STUN codec, discovery session and initiator polling loop

A shallow embedding of `pkg/stun/stun.go`, of `GetMyPublicEndpoint` in
`pkg/common/common.go` and of the polling loop of `cmd/client/main.go`.

Conventions of the embedding:

* a byte is a natural number below 256 and a Go byte slice is a `List Nat`;
* a 16-bit or 32-bit unsigned integer is a natural number, read big-endian
  from its bytes;
* a Go function returning `(value, error)` returns an `Outcome`, which has a
  third alternative for a runtime panic (index or slice bounds out of range);
* the attribute loop is driven by a fuel counter; `none` stands for an
  exhausted counter only and is shown never to arise.
-/

namespace Stun

/-! ## Constants of `pkg/stun/stun.go` -/

def magicCookie : Nat := 0x2112A442

def stunHeaderLen : Nat := 20

def familyIpv4 : Nat := 0x01

def familyIpv6 : Nat := 0x02

/-- The bytes of the Go string literal `"Hello, world"`, the hardcoded
transaction identifier. -/
def helloWorld : List Nat := [72, 101, 108, 108, 111, 44, 32, 119, 111, 114, 108, 100]

/-- A byte buffer proper: every element is below 256. -/
def validBytes (l : List Nat) : Prop := ∀ b ∈ l, b < 256

instance (l : List Nat) : Decidable (validBytes l) := by
  unfold validBytes; infer_instance

/-! ## `encoding/binary` big-endian accessors -/

/-- Function `binary.BigEndian.Uint16(b)`: the first two bytes of `b`, big-endian.
`none` is the runtime panic raised when `b` has fewer than two bytes. -/
def uint16 : List Nat → Option Nat
  | b0 :: b1 :: _ => some (b0 * 256 + b1)
  | _ => none

/-- Function `binary.BigEndian.Uint32(b)`: the first four bytes of `b`, big-endian.
`none` is the runtime panic raised when `b` has fewer than four bytes. -/
def uint32 : List Nat → Option Nat
  | b0 :: b1 :: b2 :: b3 :: _ => some (((b0 * 256 + b1) * 256 + b2) * 256 + b3)
  | _ => none

/-- Function `binary.BigEndian.PutUint16(b[off:], v)`. -/
def putUint16 (b : List Nat) (off v : Nat) : List Nat :=
  (b.set off (v / 256 % 256)).set (off + 1) (v % 256)

/-- Function `binary.BigEndian.PutUint32(b[off:], v)`. -/
def putUint32 (b : List Nat) (off v : Nat) : List Nat :=
  (((b.set off (v / 16777216 % 256)).set (off + 1) (v / 65536 % 256)).set
    (off + 2) (v / 256 % 256)).set (off + 3) (v % 256)

/-- The builtin `copy(dst[off:], src)`: overwrites `min(len(dst) - off, len(src))`
bytes of `dst` from offset `off` on. -/
def copyAt (dst : List Nat) (off : Nat) (src : List Nat) : List Nat :=
  dst.take off ++ (src.take (dst.length - off) ++ dst.drop (off + src.length))

/-! ## `makeBindingRequest` -/

def makeBindingRequest : List Nat :=
  let buffer := List.replicate stunHeaderLen 0
  let buffer := putUint16 buffer 0 0x0001
  let buffer := putUint32 buffer 4 magicCookie
  let buffer := copyAt buffer 8 helloWorld
  buffer

/-! ## `isReservedAttribute`, `xorSlice` -/

def isReservedAttribute (attrType : Nat) : Bool :=
  attrType == 0x0000 ||
  attrType == 0x0002 ||
  attrType == 0x0003 ||
  attrType == 0x0004 ||
  attrType == 0x0005 ||
  attrType == 0x0007 ||
  attrType == 0x000b

/-- The function `xorSlice`: byte-wise exclusive or, as long as the shorter argument. -/
def xorSlice (lhs rhs : List Nat) : List Nat :=
  List.zipWith (fun l r => l ^^^ r) lhs rhs

/-! ## Results of `extractAddressFromBindingResponse` -/

/-- The two fields of `net.UDPAddr` the decoder fills in. -/
structure UDPAddr where
  IP : List Nat
  Port : Nat
deriving DecidableEq, Repr

/-- One constructor per `errors.New` of `extractAddressFromBindingResponse`;
the arguments are the values formatted into the message. -/
inductive DecodeError where
  /-- Message "STUN message header truncated". -/
  | headerTruncated
  /-- Message "STUN message header malformed: first two bits are not zero". -/
  | firstTwoBitsNotZero
  /-- Message "STUN message header malformed: magic cookie mismatch". -/
  | magicCookieMismatch
  /-- Message "Incomplete STUN message". -/
  | incomplete
  /-- Message "Trailing data". -/
  | trailingData
  /-- Message "Transaction ID mismatch". -/
  | transactionIdMismatch
  /-- Message "Attribute truncated". -/
  | attributeTruncated
  /-- Message "Unknown comprehension-required attribute: %x". -/
  | unknownAttribute (attrType : Nat)
  /-- Message "Invalid attribute length for IPv4 address: %d". -/
  | invalidIpv4Length (attrLen : Nat)
  /-- Message "Invalid attribute length for IPv6 address: %d". -/
  | invalidIpv6Length (attrLen : Nat)
  /-- Message "No XOR-MAPPED-ADDRESS attribute found in STUN message". -/
  | noXorMappedAddress
deriving DecidableEq, Repr

/-- What a call of the decoder ends in: an address, an error value, or a
runtime panic (an index or a slice bound out of range). -/
inductive Outcome where
  | ok (address : UDPAddr)
  | error (e : DecodeError)
  | panic
deriving DecidableEq, Repr

/-- One pass through the body of the attribute loop. -/
inductive Step where
  /-- a `return` (or a panic) inside the body -/
  | done (o : Outcome)
  /-- the end of the body or a `continue`, with the new `payload` and `address` -/
  | next (payload : List Nat) (address : Option UDPAddr)
deriving DecidableEq, Repr

/-- The tail of the loop body, from `xPort := ...` to `payload = payload[attrLen:]`:
`payload` is the slice after the attribute header, `attrLen <= len(payload)`. -/
def mappedAddress (response payload : List Nat) (attrLen : Nat) : Step :=
  -- xPort := binary.BigEndian.Uint16(payload[2:])
  match uint16 (payload.drop 2) with
  | none => .done .panic
  | some xPort =>
  -- xAddress := payload[4:attrLen]
  if attrLen < 4 then .done .panic
  else
  let xAddress := (payload.take attrLen).drop 4
  .next (payload.drop attrLen)
    (some { IP := xorSlice xAddress ((response.take 20).drop 4),
            Port := xPort ^^^ ((magicCookie >>> 16) &&& 0xffff) })

/-- The body of `for len(payload) > 0 { ... }` in
`extractAddressFromBindingResponse`, for a non-empty `payload`. -/
def attrStep (response payload : List Nat) (address : Option UDPAddr) : Step :=
  match uint16 payload with
  | none => .done .panic
  | some attrType =>
  match uint16 (payload.drop 2) with
  | none => .done .panic
  | some attrLen =>
  let payload := payload.drop 4
  if attrLen > payload.length then .done (.error .attributeTruncated)
  -- Skip comprehension-optional attributes
  else if attrType &&& 0x8000 > 0 then .next (payload.drop attrLen) address
  -- Also skip reserved attributes
  else if isReservedAttribute attrType then .next (payload.drop attrLen) address
  else if attrType ≠ 0x0020 then .done (.error (.unknownAttribute attrType))
  else
  -- family := payload[1]
  match payload[1]? with
  | none => .done .panic
  | some family =>
  if family = familyIpv4 then
    if attrLen ≠ 8 then .done (.error (.invalidIpv4Length attrLen))
    else mappedAddress response payload attrLen
  else if family = familyIpv6 then
    if attrLen ≠ 20 then .done (.error (.invalidIpv6Length attrLen))
    else mappedAddress response payload attrLen
  else mappedAddress response payload attrLen

/-- The statements after the attribute loop. -/
def finish : Option UDPAddr → Outcome
  | none => .error .noXorMappedAddress
  | some address => .ok address

/-- The loop `for len(payload) > 0 { ... }` followed by the final statements.
The first argument bounds the number of passes; `none` means the bound was
reached. -/
def parseAttributes (response : List Nat) : Nat → List Nat → Option UDPAddr → Option Outcome
  | fuel, payload, address =>
    if payload.length > 0 then
      match fuel with
      | 0 => none
      | fuel + 1 =>
        match attrStep response payload address with
        | .done o => some o
        | .next payload address => parseAttributes response fuel payload address
    else some (finish address)

def extractAddressFromBindingResponse (response : List Nat) : Option Outcome :=
  if response.length < stunHeaderLen then some (.error .headerTruncated)
  else
  match uint16 response with
  | none => some .panic
  | some first16bits =>
  if first16bits &&& 0xc000 ≠ 0 then some (.error .firstTwoBitsNotZero)
  else
  match uint32 (response.drop 4) with
  | none => some .panic
  | some receivedCookie =>
  if receivedCookie ≠ magicCookie then some (.error .magicCookieMismatch)
  else
  match uint16 (response.drop 2) with
  | none => some .panic
  | some messageLengthInHeader =>
  let actualMessageLength := response.length - stunHeaderLen
  if actualMessageLength < messageLengthInHeader then some (.error .incomplete)
  else if actualMessageLength > messageLengthInHeader then some (.error .trailingData)
  else
  let transactionId := (response.take 20).drop 8
  if transactionId ≠ helloWorld then some (.error .transactionIdMismatch)
  else
  let payload := response.drop stunHeaderLen
  parseAttributes response payload.length payload none

/-! ## Specification-side definitions -/

/-- The five header checks in the order the specification lists them, on the
bytes of the buffer; `none` when all of them pass. Follows the specification's
words, to be compared with `extractAddressFromBindingResponse`. -/
def headerCheck (response : List Nat) : Option DecodeError :=
  let byte (i : Nat) : Nat := response.getD i 0
  let declared := byte 2 * 256 + byte 3
  if response.length < 20 then some .headerTruncated
  else if (byte 0 * 256 + byte 1) &&& 0xc000 ≠ 0 then some .firstTwoBitsNotZero
  else if ((byte 4 * 256 + byte 5) * 256 + byte 6) * 256 + byte 7 ≠ 0x2112A442 then
    some .magicCookieMismatch
  else if response.length - 20 < declared then some .incomplete
  else if response.length - 20 > declared then some .trailingData
  else if (response.drop 8).take 12 ≠ helloWorld then some .transactionIdMismatch
  else none

/-! ## Attributes on the wire and synthetic responses -/

/-- An attribute as it stands on the wire: a 16-bit type and a value; the
length field is the length of the value. -/
structure Attr where
  typ : Nat
  value : List Nat
deriving DecidableEq, Repr

/-- Wire form of an attribute: type and length big-endian, then the value. -/
def Attr.encode (a : Attr) : List Nat :=
  [a.typ / 256, a.typ % 256, a.value.length / 256, a.value.length % 256] ++ a.value

/-- Wire form of a sequence of attributes. -/
def encodeAttrs : List Attr → List Nat
  | [] => []
  | a :: attrs => a.encode ++ encodeAttrs attrs

/-- A type the decoder skips: comprehension-optional (high bit set) or reserved. -/
def skippable (t : Nat) : Prop :=
  t &&& 0x8000 ≠ 0 ∨ t ∈ [0x0000, 0x0002, 0x0003, 0x0004, 0x0005, 0x0007, 0x000b]

instance (t : Nat) : Decidable (skippable t) := by
  unfold skippable; infer_instance

/-- The loop with the fuel the decoder gives it. -/
def run (response payload : List Nat) (address : Option UDPAddr) : Option Outcome :=
  parseAttributes response payload.length payload address

/-- The address and port a mapped-address value stands for: port from bytes 2-3
XOR the upper half of the magic cookie, address from bytes 4 on XOR bytes 4-19
of the response (magic cookie, then transaction identifier). -/
def decodeMapped (response value : List Nat) : UDPAddr :=
  { IP := xorSlice (value.drop 4) ((response.take 20).drop 4),
    Port := (value.getD 2 0 * 256 + value.getD 3 0) ^^^ 0x2112 }

/-- A mapped-address value the decoder takes: at least the four fixed bytes,
and the length the family tag asks for. -/
def Attr.validMapped (a : Attr) : Prop :=
  4 ≤ a.value.length ∧ (a.value.getD 1 0 = 1 → a.value.length = 8) ∧
    (a.value.getD 1 0 = 2 → a.value.length = 20)

instance (a : Attr) : Decidable a.validMapped := by
  unfold Attr.validMapped; infer_instance

/-- An attribute the loop gets past: skipped, or a mapped address it decodes. -/
def Attr.passes (a : Attr) : Prop :=
  skippable a.typ ∨ (a.typ = 0x0020 ∧ a.validMapped)

instance (a : Attr) : Decidable a.passes := by
  unfold Attr.passes; infer_instance

/-- A comprehension-required type the decoder does not know. -/
def unknownRequired (t : Nat) : Prop :=
  ¬ skippable t ∧ t ≠ 0x0020

instance (t : Nat) : Decidable (unknownRequired t) := by
  unfold unknownRequired; infer_instance

/-- The `address` variable after the loop has gone through the attributes
`attrs`, all of which it gets past. -/
def addressAfter (response : List Nat) (attrs : List Attr) (address : Option UDPAddr) :
    Option UDPAddr :=
  attrs.foldl
    (fun acc a => if skippable a.typ then acc else some (decodeMapped response a.value)) address

/-- The 16 bytes the address is XOR-ed with: magic cookie, then transaction identifier. -/
def xorKey : List Nat := [0x21, 0x12, 0xA4, 0x42] ++ helloWorld

/-- The obfuscated form of an address, as the specification describes it: byte
`i` of the result is byte `i` of the address XOR byte `i` of the key. Written
from the specification's words, without the decoder's `xorSlice`. -/
def obfuscate : List Nat → List Nat → List Nat
  | a :: address, k :: key => (a ^^^ k) :: obfuscate address key
  | _, _ => []

/-- The XOR-MAPPED-ADDRESS attribute for an address and a port, as the
specification describes it: type 0x0020, one reserved byte, the family tag
(1 for a 4-byte address, 2 otherwise), the port XOR 0x2112, the address XOR
magic cookie and transaction identifier. -/
def xorMappedAddress (ip : List Nat) (port : Nat) : Attr :=
  { typ := 0x0020,
    value := [0x00, if ip.length = 4 then 1 else 2, (port ^^^ 0x2112) / 256,
      (port ^^^ 0x2112) % 256] ++ obfuscate ip xorKey }

/-- A response whose header passes the checks: the 16-bit message type, the
length of the payload, the magic cookie, the transaction identifier, then the
payload. -/
def mkResponse (msgType : Nat) (payload : List Nat) : List Nat :=
  [msgType / 256, msgType % 256, payload.length / 256, payload.length % 256,
    0x21, 0x12, 0xA4, 0x42] ++ helloWorld ++ payload

/-- The synthetic success response (type 0x0101) for an address and a port,
with the mapped-address attribute as its only attribute. -/
def syntheticResponse (ip : List Nat) (port : Nat) : List Nat :=
  mkResponse 0x0101 (xorMappedAddress ip port).encode

/-- The step with the payload that follows replaced. -/
def Step.withRest : Step → List Nat → Step
  | .done o, _ => .done o
  | .next _ address, rest => .next rest address

end Stun

namespace Common

/-! ## `pkg/common/common.go`: `GetMyPublicEndpoint` -/

structure Endpoint where
  Address : String
  Port : Int
deriving DecidableEq, Repr

structure HubMessage where
  /-- The field `Type` of the source. -/
  Type_ : String
  Serial : Nat
  PublicEndpoint : Option Endpoint
deriving DecidableEq, Repr

/-- The errors `GetMyPublicEndpoint` returns. -/
inductive SessionError where
  /-- an error handed on from `stun.SendBindingRequest` or from the receiving goroutine -/
  | transport (message : String)
  /-- Message "No response from server after %d retries". -/
  | noResponse (retries : Nat)
deriving DecidableEq, Repr

/-- What one `select` of the loop receives. `stun.SendBindingRequest` and
`stun.ReceiveBindingResponse` are not among the sources: the outcome of the
send a timer fire may lead to comes with the event (`none` for success, the
error otherwise), and so do the address and the error of the receiver. -/
inductive Event where
  /-- Case `addr := <-addrChan`. -/
  | addr (address : Stun.UDPAddr)
  /-- Case `err := <-errChan`. -/
  | recvError (message : String)
  /-- Case `<-retryChan`, with the result of the send that follows if one is made -/
  | retry (sendError : Option String)
deriving DecidableEq, Repr

/-- The local variables of the loop, and the number of calls of
`stun.SendBindingRequest` made so far. -/
structure Session where
  retries : Nat
  sends : Nat
deriving DecidableEq, Repr

/-- Where a call stands after the events seen so far. -/
inductive Status where
  /-- blocked in `select` -/
  | waiting (s : Session)
  /-- returned an endpoint, after `sends` sends -/
  | returned (endpoint : Endpoint) (sends : Nat)
  /-- returned an error, after `sends` sends -/
  | failed (e : SessionError) (sends : Nat)
deriving DecidableEq, Repr

def maxRetries : Nat := 4

/-- One pass through `select`. `ipString` stands for `net.IP.String`. -/
def selectStep (ipString : List Nat → String) (s : Session) : Event → Status
  | .addr address =>
    .returned { Address := ipString address.IP, Port := Int.ofNat address.Port } s.sends
  | .recvError message => .failed (.transport message) s.sends
  | .retry sendError =>
    if s.retries = maxRetries then .failed (.noResponse s.retries) s.sends
    else
      let retries := s.retries + 1
      match sendError with
      | some message => .failed (.transport message) (s.sends + 1)
      | none => .waiting { retries := retries, sends := s.sends + 1 }

/-- The loop `for { select { ... } }` over the events that arrive. -/
def selectLoop (ipString : List Nat → String) : Session → List Event → Status
  | s, [] => .waiting s
  | s, ev :: evs =>
    match selectStep ipString s ev with
    | .waiting s' => selectLoop ipString s' evs
    | status => status

/-- The function `GetMyPublicEndpoint`: the first send, then the loop. -/
def GetMyPublicEndpoint (ipString : List Nat → String) (firstSendError : Option String)
    (events : List Event) : Status :=
  match firstSendError with
  | some message => .failed (.transport message) 1
  | none => selectLoop ipString { retries := 0, sends := 1 } events

end Common

namespace Client

/-! ## `cmd/client/main.go`: the polling loop, with the types of `pkg/tgapi` -/

structure Chat where
  Id : Int
deriving DecidableEq, Repr

structure Message where
  Chat : Chat
  Text : Option String
deriving DecidableEq, Repr

structure Update where
  Id : Int
  ChannelPost : Option Message
deriving DecidableEq, Repr

/-- How one pass through the body of `for _, upd := range(updates)` ends. -/
inductive Entry where
  /-- a `continue`, or the end of the body -/
  | skip
  /-- the endpoint is printed and `os.Exit(0)` is called -/
  | accept (endpoint : Common.Endpoint)
  /-- the nil dereference of `*msg.PublicEndpoint` -/
  | crash
deriving DecidableEq, Repr

/-- The body of `for _, upd := range(updates)`. `unmarshal` stands for
`json.Unmarshal` into a fresh `common.HubMessage` (`none` for an error). -/
def handleUpdate (unmarshal : String → Option Common.HubMessage) (chatId : Int) (serial : Nat)
    (upd : Update) : Entry :=
  match upd.ChannelPost with
  | none => .skip
  | some post =>
  if post.Chat.Id ≠ chatId then .skip
  else
  match post.Text with
  | none => .skip
  | some text =>
  match unmarshal text with
  | none => .skip
  | some msg =>
  if msg.Type_ ≠ "start_punching_response" then .skip
  else if msg.Serial ≠ serial then .skip
  else
  match msg.PublicEndpoint with
  | none => .crash
  | some endpoint => .accept endpoint

/-- The loop `for _, upd := range(updates)`. -/
def rangeUpdates (unmarshal : String → Option Common.HubMessage) (chatId : Int) (serial : Nat) :
    List Update → Entry
  | [] => .skip
  | upd :: updates =>
    match handleUpdate unmarshal chatId serial upd with
    | .skip => rangeUpdates unmarshal chatId serial updates
    | entry => entry

/-- How one pass through the outer loop ends, for the batch `GetUpdates` returned. -/
inductive Poll where
  /-- Call of `os.Exit(0)` after printing the endpoint; `updateOffset` as it stood then -/
  | exited (endpoint : Common.Endpoint) (updateOffset : Int)
  /-- runtime panic; `updateOffset` as it stood then -/
  | crashed (updateOffset : Int)
  /-- the end of the body, with the new `updateOffset` -/
  | next (updateOffset : Int)
deriving DecidableEq, Repr

/-- The body of the outer `for` after `GetUpdates` has returned `updates`. -/
def pollOnce (unmarshal : String → Option Common.HubMessage) (chatId : Int) (serial : Nat)
    (updateOffset : Int) (updates : List Update) : Poll :=
  match rangeUpdates unmarshal chatId serial updates with
  | .accept endpoint => .exited endpoint updateOffset
  | .crash => .crashed updateOffset
  | .skip =>
    match updates.getLast? with
    | some last => .next last.Id
    | none => .next updateOffset

/-! ### Specification-side definitions -/

/-- An entry the initiator has to skip: it is not the case that it has a
channel post, from the configured chat, with a text, that parses as a
handshake message, of type `start_punching_response`, with the serial of this
run. -/
def irrelevant (unmarshal : String → Option Common.HubMessage) (chatId : Int) (serial : Nat)
    (upd : Update) : Prop :=
  ∀ post ∈ upd.ChannelPost, post.Chat.Id = chatId → ∀ text ∈ post.Text,
    ∀ msg ∈ unmarshal text, msg.Type_ = "start_punching_response" → msg.Serial ≠ serial

/-- An entry that passes all the checks and carries the endpoint `endpoint`. -/
def answers (unmarshal : String → Option Common.HubMessage) (chatId : Int) (serial : Nat)
    (upd : Update) (endpoint : Common.Endpoint) : Prop :=
  ∃ post ∈ upd.ChannelPost, post.Chat.Id = chatId ∧ ∃ text ∈ post.Text,
    ∃ msg ∈ unmarshal text, msg.Type_ = "start_punching_response" ∧ msg.Serial = serial ∧
      msg.PublicEndpoint = some endpoint

/-- An entry that passes all the checks and carries no endpoint. -/
def answersWithoutEndpoint (unmarshal : String → Option Common.HubMessage) (chatId : Int)
    (serial : Nat) (upd : Update) : Prop :=
  ∃ post ∈ upd.ChannelPost, post.Chat.Id = chatId ∧ ∃ text ∈ post.Text,
    ∃ msg ∈ unmarshal text, msg.Type_ = "start_punching_response" ∧ msg.Serial = serial ∧
      msg.PublicEndpoint = none

/-- The new cursor after a batch without a match: the identifier of the last
entry, or the old cursor for an empty batch. -/
def cursorAfter (updateOffset : Int) (updates : List Update) : Int :=
  (updates.getLast?.map (fun upd => upd.Id)).getD updateOffset

/-- A decoder for the texts of the examples: `"r7"` and `"r42"` are the
responses with serial 7 and 42, `"r42neg"` is a response with serial 42 and
the port -1, `"r42null"` is a response with serial 42 and no endpoint,
anything else fails to parse. -/
def exampleUnmarshal (text : String) : Option Common.HubMessage :=
  if text = "r7" then
    some { Type_ := "start_punching_response", Serial := 7,
           PublicEndpoint := some { Address := "198.51.100.7", Port := 7007 } }
  else if text = "r42" then
    some { Type_ := "start_punching_response", Serial := 42,
           PublicEndpoint := some { Address := "203.0.113.42", Port := 4242 } }
  else if text = "r42neg" then
    some { Type_ := "start_punching_response", Serial := 42,
           PublicEndpoint := some { Address := "203.0.113.42", Port := -1 } }
  else if text = "r42null" then
    some { Type_ := "start_punching_response", Serial := 42, PublicEndpoint := none }
  else none

/-- The example batch: an irrelevant entry, a response with serial 7, a
response with serial 42, with the identifiers 1, 2, 3, all from chat 5. -/
def exampleBatch : List Update :=
  [{ Id := 1, ChannelPost := some { Chat := { Id := 5 }, Text := some "hello" } },
   { Id := 2, ChannelPost := some { Chat := { Id := 5 }, Text := some "r7" } },
   { Id := 3, ChannelPost := some { Chat := { Id := 5 }, Text := some "r42" } }]

instance (unmarshal : String → Option Common.HubMessage) (chatId : Int) (serial : Nat)
    (upd : Update) : Decidable (irrelevant unmarshal chatId serial upd) := by
  unfold irrelevant; infer_instance

instance (unmarshal : String → Option Common.HubMessage) (chatId : Int) (serial : Nat)
    (upd : Update) (endpoint : Common.Endpoint) :
    Decidable (answers unmarshal chatId serial upd endpoint) := by
  unfold answers; infer_instance

instance (unmarshal : String → Option Common.HubMessage) (chatId : Int) (serial : Nat)
    (upd : Update) : Decidable (answersWithoutEndpoint unmarshal chatId serial upd) := by
  unfold answersWithoutEndpoint; infer_instance

end Client

namespace Stun

/-! ## Theorems about `pkg/stun/stun.go` -/

theorem uint16_of_length {l : List Nat} (h : 2 ≤ l.length) :
    uint16 l = some (l.getD 0 0 * 256 + l.getD 1 0) := by
  match l, h with
  | b0 :: b1 :: _, _ => rfl

theorem uint32_of_length {l : List Nat} (h : 4 ≤ l.length) :
    uint32 l = some (((l.getD 0 0 * 256 + l.getD 1 0) * 256 + l.getD 2 0) * 256 + l.getD 3 0) := by
  match l, h with
  | b0 :: b1 :: b2 :: b3 :: _, _ => rfl

theorem getD_drop (l : List Nat) (n i : Nat) : (l.drop n).getD i 0 = l.getD (n + i) 0 := by
  simp [List.getD_eq_getElem?_getD, List.getElem?_drop]

theorem take_drop_comm (l : List Nat) : (l.take 20).drop 8 = (l.drop 8).take 12 := by
  rw [List.drop_take]

/-- The header part of the decoder against the five checks of the specification. -/
theorem extract_eq_headerCheck (response : List Nat) :
    extractAddressFromBindingResponse response =
      match headerCheck response with
      | some e => some (.error e)
      | none => parseAttributes response (response.length - 20) (response.drop 20) none := by
  unfold extractAddressFromBindingResponse headerCheck
  by_cases hlen : response.length < 20
  · simp [stunHeaderLen, hlen]
  · have h2 : 2 ≤ response.length := by omega
    have h2b : 2 ≤ (response.drop 2).length := by simp; omega
    have h4 : 4 ≤ (response.drop 4).length := by simp; omega
    simp only [stunHeaderLen, hlen, if_false, uint16_of_length h2, uint16_of_length h2b,
      uint32_of_length h4, getD_drop, take_drop_comm, magicCookie, List.length_drop]
    simp only [Nat.add_zero, Nat.reduceAdd]
    split_ifs <;> rfl

theorem mappedAddress_next {response payload : List Nat} {attrLen : Nat}
    {payload' : List Nat} {address' : Option UDPAddr}
    (h : mappedAddress response payload attrLen = .next payload' address') :
    payload' = payload.drop attrLen := by
  unfold mappedAddress at h
  cases hx : uint16 (payload.drop 2) with
  | none => simp [hx] at h
  | some x =>
    simp only [hx] at h
    by_cases h4 : attrLen < 4
    · simp [h4] at h
    · simp only [h4, if_false, Step.next.injEq] at h
      exact h.1.symm

theorem attrStep_length {response payload : List Nat} {address : Option UDPAddr}
    {payload' : List Nat} {address' : Option UDPAddr}
    (h : attrStep response payload address = .next payload' address') :
    payload'.length + 4 ≤ payload.length := by
  unfold attrStep at h
  match payload, h with
  | [], h => simp [uint16] at h
  | [_], h => simp [uint16] at h
  | [_, _], h => simp [uint16] at h
  | [_, _, _], h => simp [uint16] at h
  | t1 :: t0 :: l1 :: l0 :: rem, h =>
    simp only [uint16, List.drop_succ_cons, List.drop_zero] at h
    have key : payload' = rem.drop (l1 * 256 + l0) := by
      repeat' split at h
      all_goals first
        | exact mappedAddress_next h
        | (simp only [Step.next.injEq] at h; exact h.1.symm)
        | simp only [reduceCtorEq] at h
    subst key
    simp only [List.length_drop, List.length_cons]
    omega

/-- Fuel beyond the length of the payload changes nothing. -/
theorem parseAttributes_fuel (response : List Nat) :
    ∀ (n m : Nat) (payload : List Nat) (address : Option UDPAddr),
      payload.length ≤ n → payload.length ≤ m →
      parseAttributes response n payload address = parseAttributes response m payload address := by
  intro n
  induction n with
  | zero =>
    intro m payload address hn _
    have h0 : payload.length = 0 := by omega
    unfold parseAttributes
    simp [h0]
  | succ n ih =>
    intro m payload address hn hm
    by_cases h0 : payload.length > 0
    · match m, hm with
      | 0, hm => omega
      | m + 1, hm =>
        rw [parseAttributes, parseAttributes]
        simp only [h0, if_true]
        cases hs : attrStep response payload address with
        | done o => rfl
        | next payload' address' =>
          have hl := attrStep_length hs
          exact ih m payload' address' (by omega) (by omega)
    · unfold parseAttributes
      simp [h0]

/-- The loop always comes to an end within the fuel the decoder gives it. -/
theorem parseAttributes_isSome (response : List Nat) :
    ∀ (n : Nat) (payload : List Nat) (address : Option UDPAddr),
      payload.length ≤ n → ∃ o, parseAttributes response n payload address = some o := by
  intro n
  induction n with
  | zero =>
    intro payload address hn
    have h0 : payload.length = 0 := by omega
    exact ⟨finish address, by unfold parseAttributes; simp [h0]⟩
  | succ n ih =>
    intro payload address hn
    by_cases h0 : payload.length > 0
    · rw [parseAttributes]
      simp only [h0, if_true]
      cases hs : attrStep response payload address with
      | done o => exact ⟨o, rfl⟩
      | next payload' address' =>
        have hl := attrStep_length hs
        exact ih payload' address' (by omega)
    · exact ⟨finish address, by unfold parseAttributes; simp [h0]⟩

theorem run_nil (response : List Nat) (address : Option UDPAddr) :
    run response [] address = some (finish address) := by
  simp [run, parseAttributes]

/-- One unfolding of the loop on a non-empty payload. -/
theorem run_step (response payload : List Nat) (address : Option UDPAddr)
    (h : 0 < payload.length) :
    run response payload address =
      match attrStep response payload address with
      | .done o => some o
      | .next payload' address' => run response payload' address' := by
  unfold run
  match hl : payload.length, h with
  | n + 1, _ =>
    rw [parseAttributes]
    simp only [hl, Nat.zero_lt_succ, if_true]
    cases hs : attrStep response payload address with
    | done o => rfl
    | next payload' address' =>
      have hlen := attrStep_length hs
      exact parseAttributes_fuel response n payload'.length payload' address' (by omega) (by omega)

/-- The mask 0xc000 on a 16-bit word tests its two top bits. -/
theorem land_c000_eq_zero_iff (w : Nat) (hw : w < 65536) : w &&& 0xc000 = 0 ↔ w < 16384 := by
  constructor
  · intro h
    have h14 : (w &&& 0xc000).testBit 14 = false := by rw [h]; exact Nat.zero_testBit 14
    have h15 : (w &&& 0xc000).testBit 15 = false := by rw [h]; exact Nat.zero_testBit 15
    rw [Nat.testBit_and] at h14 h15
    have m14 : Nat.testBit 0xc000 14 = true := by decide
    have m15 : Nat.testBit 0xc000 15 = true := by decide
    rw [m14, Bool.and_true] at h14
    rw [m15, Bool.and_true] at h15
    rw [Nat.testBit_to_div_mod] at h14 h15
    simp only [decide_eq_false_iff_not] at h14 h15
    norm_num at h14 h15
    omega
  · intro h
    apply Nat.eq_of_testBit_eq
    intro i
    rw [Nat.testBit_and, Nat.zero_testBit]
    by_cases hi : i < 14
    · have : Nat.testBit 0xc000 i = false := by
        interval_cases i <;> decide
      rw [this, Bool.and_false]
    · have h14 : 14 ≤ i := by omega
      have hx : w < 2 ^ i :=
        lt_of_lt_of_le (by simpa using h) (Nat.pow_le_pow_right (by decide) h14)
      rw [Nat.testBit_lt_two_pow hx, Bool.false_and]

/-- Reading a byte buffer at any index gives a value below 256. -/
theorem getD_lt_of_validBytes {l : List Nat} (h : validBytes l) (i : Nat) : l.getD i 0 < 256 := by
  rw [List.getD_eq_getElem?_getD]
  cases hi : l[i]? with
  | none => simp
  | some b =>
    have : b ∈ l := List.getElem?_mem hi
    simpa using h b this

/-- On a byte buffer, the five checks pass exactly when the buffer has at least
20 bytes, the two top bits of byte 0 are clear, bytes 4-7 are 21 12 A4 42,
bytes 2-3 hold the number of bytes after the header, and bytes 8-19 are the
transaction identifier. -/
theorem headerCheck_eq_none_iff (response : List Nat) (hb : validBytes response) :
    headerCheck response = none ↔
      20 ≤ response.length ∧ response.getD 0 0 < 64 ∧
      (response.getD 4 0 = 0x21 ∧ response.getD 5 0 = 0x12 ∧ response.getD 6 0 = 0xA4 ∧
        response.getD 7 0 = 0x42) ∧
      response.getD 2 0 * 256 + response.getD 3 0 = response.length - 20 ∧
      (response.drop 8).take 12 = helloWorld := by
  have h0 := getD_lt_of_validBytes hb 0
  have h1 := getD_lt_of_validBytes hb 1
  have h4 := getD_lt_of_validBytes hb 4
  have h5 := getD_lt_of_validBytes hb 5
  have h6 := getD_lt_of_validBytes hb 6
  have h7 := getD_lt_of_validBytes hb 7
  have hbits := land_c000_eq_zero_iff (response.getD 0 0 * 256 + response.getD 1 0) (by omega)
  unfold headerCheck
  simp only []
  split_ifs with c1 c2 c3 c4 c5 c6
  all_goals simp only [reduceCtorEq, false_iff, true_iff, not_and]
  · omega
  · intro _ hlt
    exact absurd (hbits.2 (by omega)) c2
  · intro _ _ hc
    omega
  · intro _ _ _ hd
    omega
  · intro _ _ _ hd
    omega
  · intro _ _ _ _
    exact c6
  · refine ⟨by omega, ?_, ?_, by omega, by simpa using c6⟩
    · have := hbits.1 (by simpa using c2)
      omega
    · have hc : ((response.getD 4 0 * 256 + response.getD 5 0) * 256 + response.getD 6 0) * 256
          + response.getD 7 0 = 0x2112A442 := by simpa using c3
      omega

/-- Once the header checks pass, the decoder is the attribute loop on the payload. -/
theorem extract_eq_run {response : List Nat} (h : headerCheck response = none) :
    extractAddressFromBindingResponse response = run response (response.drop 20) none := by
  rw [extract_eq_headerCheck, h]
  simp [run]

theorem skippable_iff (t : Nat) :
    skippable t ↔ (t &&& 0x8000 > 0 ∨ isReservedAttribute t = true) := by
  simp only [skippable, isReservedAttribute, Nat.pos_iff_ne_zero, List.mem_cons,
    List.mem_singleton, Bool.or_eq_true, beq_iff_eq, or_assoc, ne_eq, gt_iff_lt,
    List.mem_nil_iff, or_false]

theorem attrStep_encode (response rest : List Nat) (a : Attr) (address : Option UDPAddr) :
    attrStep response (a.encode ++ rest) address =
      if skippable a.typ then .next rest address
      else if a.typ ≠ 0x0020 then .done (.error (.unknownAttribute a.typ))
      else
        match (a.value ++ rest)[1]? with
        | none => .done .panic
        | some family =>
        if family = familyIpv4 then
          if a.value.length ≠ 8 then .done (.error (.invalidIpv4Length a.value.length))
          else mappedAddress response (a.value ++ rest) a.value.length
        else if family = familyIpv6 then
          if a.value.length ≠ 20 then .done (.error (.invalidIpv6Length a.value.length))
          else mappedAddress response (a.value ++ rest) a.value.length
        else mappedAddress response (a.value ++ rest) a.value.length := by
  have hlen : ¬ a.value.length > (a.value ++ rest).length := by simp
  simp only [attrStep, Attr.encode, List.cons_append, List.nil_append, uint16,
    List.drop_succ_cons, List.drop_zero, Nat.div_add_mod', hlen, if_false, List.drop_left]
  by_cases h1 : a.typ &&& 0x8000 > 0
  · have hs : skippable a.typ := (skippable_iff _).2 (Or.inl h1)
    simp only [h1, hs, if_true]
  · by_cases h2 : isReservedAttribute a.typ = true
    · have hs : skippable a.typ := (skippable_iff _).2 (Or.inr h2)
      simp only [h1, h2, hs, if_true, if_false]
    · have hs : ¬ skippable a.typ := fun h => ((skippable_iff _).1 h).elim h1 h2
      have h2f : isReservedAttribute a.typ = false := by simpa using h2
      simp only [h1, h2f, hs, if_false, Bool.false_eq_true]

theorem mappedAddress_encode (response rest : List Nat) (a : Attr) (h : 4 ≤ a.value.length) :
    mappedAddress response (a.value ++ rest) a.value.length =
      .next rest (some (decodeMapped response a.value)) := by
  match hv : a.value, h with
  | f0 :: f1 :: p1 :: p0 :: addr, h =>
    have h4 : ¬ (f0 :: f1 :: p1 :: p0 :: addr).length < 4 := by simp
    have hd : (f0 :: f1 :: p1 :: p0 :: addr) ++ rest = (f0 :: f1 :: p1 :: p0 :: addr) ++ rest := rfl
    unfold mappedAddress
    rw [List.take_left, List.drop_left]
    simp only [List.cons_append, List.drop_succ_cons, List.drop_zero, uint16, h4, if_false,
      decodeMapped, List.getD_cons_succ, List.getD_cons_zero, magicCookie]
    rfl

theorem encode_length_pos (a : Attr) (rest : List Nat) : 0 < (a.encode ++ rest).length := by
  simp [Attr.encode]

theorem attrStep_passes (response rest : List Nat) (a : Attr) (address : Option UDPAddr)
    (h : a.passes) :
    attrStep response (a.encode ++ rest) address =
      .next rest (if skippable a.typ then address else some (decodeMapped response a.value)) := by
  rw [attrStep_encode]
  by_cases hs : skippable a.typ
  · simp only [hs, if_true]
  · obtain ⟨ht, h4, hv4, hv6⟩ := h.resolve_left hs
    have h1 : (a.value ++ rest)[1]? = some (a.value.getD 1 0) := by
      rw [List.getElem?_append_left (by omega), List.getD_eq_getElem?_getD,
        List.getElem?_eq_getElem (by omega)]
      rfl
    have htn : ¬ (a.typ ≠ 0x0020) := fun hne => hne ht
    simp only [hs, htn, if_false, h1, familyIpv4, familyIpv6]
    split_ifs with c1 c2 c3 c4
    · exact absurd (hv4 c1) c2
    · exact mappedAddress_encode response rest a h4
    · exact absurd (hv6 c3) c4
    · exact mappedAddress_encode response rest a h4
    · exact mappedAddress_encode response rest a h4

/-- The loop goes through a prefix of attributes it gets past. -/
theorem run_passing (response : List Nat) :
    ∀ (pre : List Attr) (rest : List Nat) (address : Option UDPAddr),
      (∀ a ∈ pre, a.passes) →
      run response (encodeAttrs pre ++ rest) address =
        run response rest (addressAfter response pre address) := by
  intro pre
  induction pre with
  | nil => intro rest address _; rfl
  | cons a pre ih =>
    intro rest address h
    have ha : a.passes := h a (List.mem_cons_self _ _)
    have hpre : ∀ b ∈ pre, b.passes := fun b hb => h b (List.mem_cons_of_mem _ hb)
    simp only [encodeAttrs, List.append_assoc]
    rw [run_step _ _ _ (encode_length_pos a _), attrStep_passes _ _ _ _ ha]
    simp only
    rw [ih _ _ hpre]
    rfl

theorem xorSlice_cancel : ∀ (l k : List Nat), l.length ≤ k.length →
    xorSlice (xorSlice l k) k = l := by
  intro l
  induction l with
  | nil => intro k _; simp [xorSlice]
  | cons a l ih =>
    intro k hk
    match k, hk with
    | b :: k, hk =>
      have := ih k (by simpa using hk)
      simp only [xorSlice, List.zipWith_cons_cons, List.cons.injEq] at this ⊢
      exact ⟨by rw [Nat.xor_assoc, Nat.xor_self, Nat.xor_zero], this⟩

/-- The decoder's `xorSlice` computes the byte-wise XOR of the specification. -/
theorem xorSlice_eq_obfuscate : ∀ (l k : List Nat), xorSlice l k = obfuscate l k := by
  intro l
  induction l with
  | nil => intro k; cases k <;> rfl
  | cons a l ih =>
    intro k
    cases k with
    | nil => rfl
    | cons b k =>
      have := ih k
      simp only [xorSlice, List.zipWith_cons_cons, obfuscate, List.cons.injEq, true_and] at this ⊢
      exact this

theorem xorSlice_length (l k : List Nat) : (xorSlice l k).length = min l.length k.length := by
  simp [xorSlice]

theorem xorSlice_validBytes : ∀ (l k : List Nat), validBytes l → validBytes k →
    validBytes (xorSlice l k) := by
  intro l
  induction l with
  | nil => intro k _ _ b hb; simp [xorSlice] at hb
  | cons a l ih =>
    intro k hl hk
    match k, hk with
    | [], _ => intro b hb; simp [xorSlice] at hb
    | c :: k, hk =>
      intro b hb
      simp only [xorSlice, List.zipWith_cons_cons, List.mem_cons] at hb
      rcases hb with rfl | hb
      · have h8 : a ^^^ c < 2 ^ 8 :=
          Nat.xor_lt_two_pow (hl a (List.mem_cons_self _ _)) (hk c (List.mem_cons_self _ _))
        exact h8
      · exact ih k (fun x hx => hl x (List.mem_cons_of_mem _ hx))
          (fun x hx => hk x (List.mem_cons_of_mem _ hx)) b hb

/-- The header of `mkResponse` passes the five checks when the payload length
fits 16 bits and the message type has its two top bits clear. -/
theorem headerCheck_mkResponse (msgType : Nat) (payload : List Nat)
    (ht : msgType &&& 0xc000 = 0) :
    headerCheck (mkResponse msgType payload) = none := by
  have hl : (mkResponse msgType payload).length = 20 + payload.length := by
    simp [mkResponse, helloWorld]; omega
  have hd : ((mkResponse msgType payload).drop 8).take 12 = helloWorld := rfl
  have g0 : (mkResponse msgType payload).getD 0 0 = msgType / 256 := rfl
  have g1 : (mkResponse msgType payload).getD 1 0 = msgType % 256 := rfl
  have g2 : (mkResponse msgType payload).getD 2 0 = payload.length / 256 := rfl
  have g3 : (mkResponse msgType payload).getD 3 0 = payload.length % 256 := rfl
  have g4 : (mkResponse msgType payload).getD 4 0 = 0x21 := rfl
  have g5 : (mkResponse msgType payload).getD 5 0 = 0x12 := rfl
  have g6 : (mkResponse msgType payload).getD 6 0 = 0xA4 := rfl
  have g7 : (mkResponse msgType payload).getD 7 0 = 0x42 := rfl
  simp only [headerCheck, hl, hd, g0, g1, g2, g3, g4, g5, g6, g7, Nat.div_add_mod', ht]
  simp

theorem mkResponse_drop (msgType : Nat) (payload : List Nat) :
    (mkResponse msgType payload).drop 20 = payload := by
  simp [mkResponse, helloWorld]

theorem mkResponse_key (msgType : Nat) (payload : List Nat) :
    ((mkResponse msgType payload).take 20).drop 4 = xorKey := rfl

theorem xorMappedAddress_passes (ip : List Nat) (port : Nat)
    (hip : ip.length = 4 ∨ ip.length = 16) : (xorMappedAddress ip port).passes := by
  refine Or.inr ⟨rfl, ?_⟩
  have hk : xorKey.length = 16 := rfl
  rcases hip with h | h <;>
    simp [Attr.validMapped, xorMappedAddress, ← xorSlice_eq_obfuscate, xorSlice_length, h, hk]

theorem decodeMapped_xorMappedAddress (response ip : List Nat) (port : Nat)
    (hkey : (response.take 20).drop 4 = xorKey) (hip : ip.length ≤ 16) :
    decodeMapped response (xorMappedAddress ip port).value = { IP := ip, Port := port } := by
  simp only [decodeMapped, xorMappedAddress, ← xorSlice_eq_obfuscate, hkey, List.cons_append,
    List.nil_append,
    List.drop_succ_cons, List.drop_zero, List.getD_cons_succ, List.getD_cons_zero,
    Nat.div_add_mod', UDPAddr.mk.injEq]
  exact ⟨xorSlice_cancel ip xorKey (by simpa [xorKey, helloWorld] using hip),
    by rw [Nat.xor_assoc, Nat.xor_self, Nat.xor_zero]⟩

theorem validBytes_append {l k : List Nat} (hl : validBytes l) (hk : validBytes k) :
    validBytes (l ++ k) := by
  intro b hb
  rcases List.mem_append.1 hb with h | h
  · exact hl b h
  · exact hk b h

/-- C1. Round trip: for every IPv4 (4-byte) or IPv6 (16-byte) address and every
16-bit port, the synthetic success response (header with the magic cookie and
the transaction identifier "Hello, world", length field equal to the size of
its single XOR-MAPPED-ADDRESS attribute) is a byte buffer on which
`extractAddressFromBindingResponse` returns no error and exactly the original
address bytes and port. -/
theorem roundtrip_syntheticResponse (ip : List Nat) (port : Nat)
    (hip : ip.length = 4 ∨ ip.length = 16) (hbytes : validBytes ip) (hport : port < 65536) :
    validBytes (syntheticResponse ip port) ∧
      extractAddressFromBindingResponse (syntheticResponse ip port) =
        some (.ok { IP := ip, Port := port }) := by
  constructor
  · have hx : port ^^^ 0x2112 < 2 ^ 16 := Nat.xor_lt_two_pow (by simpa using hport) (by decide)
    have hlen : (xorMappedAddress ip port).value.length < 256 := by
      have hk : xorKey.length = 16 := rfl
      simp only [xorMappedAddress, ← xorSlice_eq_obfuscate, List.length_append,
        List.length_cons, List.length_nil, xorSlice_length, hk]
      omega
    have hkey : validBytes xorKey := by decide
    have hxs := xorSlice_validBytes ip xorKey hbytes hkey
    have hfam : (if ip.length = 4 then 1 else 2) < 256 := by split_ifs <;> decide
    unfold syntheticResponse mkResponse
    refine validBytes_append (validBytes_append ?_ (by decide)) ?_
    · intro b hb
      simp only [Attr.encode, List.length_append, List.length_cons, List.length_nil,
        List.mem_cons, List.mem_singleton, List.mem_nil_iff, or_false] at hb
      rcases hb with rfl | rfl | rfl | rfl | rfl | rfl | rfl | rfl <;> omega
    · unfold Attr.encode
      refine validBytes_append ?_ ?_
      · intro b hb
        simp only [List.mem_cons, List.mem_singleton, List.mem_nil_iff, or_false] at hb
        have ht : (xorMappedAddress ip port).typ = 0x0020 := rfl
        rcases hb with rfl | rfl | rfl | rfl <;> omega
      · unfold xorMappedAddress
        rw [← xorSlice_eq_obfuscate]
        refine validBytes_append ?_ hxs
        intro b hb
        simp only [List.mem_cons, List.mem_singleton, List.mem_nil_iff, or_false] at hb
        rcases hb with rfl | rfl | rfl | rfl <;> omega
  · unfold syntheticResponse
    rw [extract_eq_run (headerCheck_mkResponse _ _ (by decide)), mkResponse_drop]
    have h := run_passing (mkResponse 0x0101 (xorMappedAddress ip port).encode)
      [xorMappedAddress ip port] [] none
      (fun a ha => by
        rw [List.mem_singleton.1 ha]
        exact xorMappedAddress_passes ip port hip)
    simp only [encodeAttrs, List.append_nil] at h
    rw [h, run_nil]
    have hns : ¬ skippable (xorMappedAddress ip port).typ := by
      show ¬ skippable 0x0020
      decide
    simp only [addressAfter, List.foldl_cons, List.foldl_nil, hns, if_false, finish]
    rw [decodeMapped_xorMappedAddress _ ip port (mkResponse_key _ _) (by omega)]

/-- C1, at the address 5.18.242.64 and the port 39917, where the synthetic
response carries the attribute bytes 00 20 00 08 00 01 ba ff 24 00 56 02 of
the server response quoted in the source, and at the 16-byte address
2001:db8::1 with the port 3478. -/
theorem roundtrip_syntheticResponse_witness :
    syntheticResponse [5, 18, 242, 64] 39917 =
        [0x01, 0x01, 0x00, 0x0c, 0x21, 0x12, 0xA4, 0x42, 72, 101, 108, 108, 111, 44, 32, 119,
          111, 114, 108, 100, 0x00, 0x20, 0x00, 0x08, 0x00, 0x01, 0xba, 0xff, 0x24, 0x00,
          0x56, 0x02] ∧
      (validBytes (syntheticResponse [5, 18, 242, 64] 39917) ∧
        extractAddressFromBindingResponse (syntheticResponse [5, 18, 242, 64] 39917) =
          some (.ok { IP := [5, 18, 242, 64], Port := 39917 })) ∧
      (validBytes
          (syntheticResponse [0x20, 0x01, 0x0d, 0xb8, 0, 0, 0, 0, 0, 0, 0, 0, 0, 0, 0, 1] 3478) ∧
        extractAddressFromBindingResponse
          (syntheticResponse [0x20, 0x01, 0x0d, 0xb8, 0, 0, 0, 0, 0, 0, 0, 0, 0, 0, 0, 1] 3478) =
          some (.ok { IP := [0x20, 0x01, 0x0d, 0xb8, 0, 0, 0, 0, 0, 0, 0, 0, 0, 0, 0, 1],
                      Port := 3478 })) :=
  ⟨by decide,
    roundtrip_syntheticResponse [5, 18, 242, 64] 39917 (Or.inl rfl) (by decide) (by decide),
    roundtrip_syntheticResponse [0x20, 0x01, 0x0d, 0xb8, 0, 0, 0, 0, 0, 0, 0, 0, 0, 0, 0, 1] 3478
      (Or.inr rfl) (by decide) (by decide)⟩

/-- The decoder always comes to an end: the fuel it gives the loop is enough. -/
theorem extract_total (response : List Nat) :
    ∃ o, extractAddressFromBindingResponse response = some o := by
  rw [extract_eq_headerCheck]
  cases headerCheck response with
  | some e => exact ⟨_, rfl⟩
  | none =>
    exact parseAttributes_isSome response _ _ none (by simp)

/-- C3. `makeBindingRequest` returns exactly 20 bytes: 0x00 0x01 (two zero bits,
then the binding-request method and class), 0x00 0x00 (message length 0), the
magic cookie 0x21 0x12 0xA4 0x42 in big-endian order, and the twelve ASCII
bytes of "Hello, world" as the transaction identifier. -/
theorem makeBindingRequest_bytes :
    makeBindingRequest.length = 20 ∧
      makeBindingRequest.take 2 = [0x00, 0x01] ∧
      (makeBindingRequest.drop 2).take 2 = [0x00, 0x00] ∧
      (makeBindingRequest.drop 4).take 4 = [0x21, 0x12, 0xA4, 0x42] ∧
      makeBindingRequest.drop 8 = "Hello, world".toList.map Char.toNat ∧
      uint16 makeBindingRequest = some 0x0001 ∧
      uint32 (makeBindingRequest.drop 4) = some magicCookie := by
  decide

/-- C4. Header validation order: on every buffer the decoder returns the error
of the first failing check of the sequence (1) fewer than 20 bytes, (2) one
of the two top bits of the first 16-bit word set, (3) bytes 4-7 not the magic
cookie, (4) declared length above or below the trailing byte count, (5) bytes
8-19 not the transaction identifier; the attribute loop runs, on the bytes
after the header, exactly when all five checks pass. -/
theorem header_validation_order (response : List Nat) :
    extractAddressFromBindingResponse response =
      match headerCheck response with
      | some e => some (.error e)
      | none => parseAttributes response (response.length - 20) (response.drop 20) none :=
  extract_eq_headerCheck response

/-- C5. Exact length match: on a buffer of at least 20 bytes whose two top bits
are zero and whose magic cookie is right, a declared length `L` above the
trailing byte count gives "Incomplete STUN message", one below it gives
"Trailing data", and an address is returned only when the trailing byte count
is exactly `L`. -/
theorem exact_length_match (response : List Nat) (hlen : 20 ≤ response.length)
    (hbits : (response.getD 0 0 * 256 + response.getD 1 0) &&& 0xc000 = 0)
    (hcookie : ((response.getD 4 0 * 256 + response.getD 5 0) * 256 + response.getD 6 0) * 256
      + response.getD 7 0 = 0x2112A442) :
    (response.length - 20 < response.getD 2 0 * 256 + response.getD 3 0 →
        extractAddressFromBindingResponse response = some (.error .incomplete)) ∧
      (response.getD 2 0 * 256 + response.getD 3 0 < response.length - 20 →
        extractAddressFromBindingResponse response = some (.error .trailingData)) ∧
      (∀ address, extractAddressFromBindingResponse response = some (.ok address) →
        response.length - 20 = response.getD 2 0 * 256 + response.getD 3 0) := by
  have hl : ¬ response.length < 20 := by omega
  have hc : headerCheck response =
      if response.length - 20 < response.getD 2 0 * 256 + response.getD 3 0 then
        some .incomplete
      else if response.length - 20 > response.getD 2 0 * 256 + response.getD 3 0 then
        some .trailingData
      else if (response.drop 8).take 12 ≠ helloWorld then some .transactionIdMismatch
      else none := by
    simp only [headerCheck, hl, hbits, hcookie, if_false, ne_eq, not_true_eq_false]
  rw [extract_eq_headerCheck, hc]
  refine ⟨fun h => by simp only [h, if_true], fun h => ?_, fun address h => ?_⟩
  · have h1 : ¬ response.length - 20 < response.getD 2 0 * 256 + response.getD 3 0 := by omega
    simp only [h1, if_false, gt_iff_lt, h, if_true]
  · by_cases h1 : response.length - 20 < response.getD 2 0 * 256 + response.getD 3 0
    · rw [if_pos h1] at h
      exact absurd h (by simp)
    · by_cases h2 : response.length - 20 > response.getD 2 0 * 256 + response.getD 3 0
      · rw [if_neg h1, if_pos h2] at h
        exact absurd h (by simp)
      · omega

/-- C5, at a header that declares 8 bytes: followed by 7 bytes it is incomplete,
followed by 9 bytes it has trailing data, and the synthetic response for
192.0.2.1:54321, which is accepted, declares the 12 bytes that follow it. -/
theorem exact_length_match_witness :
    extractAddressFromBindingResponse
        [0x01, 0x01, 0x00, 0x08, 0x21, 0x12, 0xA4, 0x42, 72, 101, 108, 108, 111, 44, 32, 119,
          111, 114, 108, 100, 0x00, 0x20, 0x00, 0x08, 0x00, 0x01, 0xba] =
        some (.error .incomplete) ∧
      extractAddressFromBindingResponse
        [0x01, 0x01, 0x00, 0x08, 0x21, 0x12, 0xA4, 0x42, 72, 101, 108, 108, 111, 44, 32, 119,
          111, 114, 108, 100, 0x00, 0x20, 0x00, 0x08, 0x00, 0x01, 0xba, 0xff, 0x24, 0x00,
          0x56, 0x02, 0x00] =
        some (.error .trailingData) ∧
      (syntheticResponse [192, 0, 2, 1] 54321).length - 20 =
        (syntheticResponse [192, 0, 2, 1] 54321).getD 2 0 * 256 +
          (syntheticResponse [192, 0, 2, 1] 54321).getD 3 0 :=
  ⟨(exact_length_match
      [0x01, 0x01, 0x00, 0x08, 0x21, 0x12, 0xA4, 0x42, 72, 101, 108, 108, 111, 44, 32, 119,
        111, 114, 108, 100, 0x00, 0x20, 0x00, 0x08, 0x00, 0x01, 0xba]
      (by decide) (by decide) (by decide)).1 (by decide),
    (exact_length_match
      [0x01, 0x01, 0x00, 0x08, 0x21, 0x12, 0xA4, 0x42, 72, 101, 108, 108, 111, 44, 32, 119,
        111, 114, 108, 100, 0x00, 0x20, 0x00, 0x08, 0x00, 0x01, 0xba, 0xff, 0x24, 0x00,
        0x56, 0x02, 0x00]
      (by decide) (by decide) (by decide)).2.1 (by decide),
    (exact_length_match (syntheticResponse [192, 0, 2, 1] 54321)
      (by decide) (by decide) (by decide)).2.2 { IP := [192, 0, 2, 1], Port := 54321 }
      (by decide)⟩

theorem encodeAttrs_append (xs ys : List Attr) :
    encodeAttrs (xs ++ ys) = encodeAttrs xs ++ encodeAttrs ys := by
  induction xs with
  | nil => rfl
  | cons a xs ih =>
    show a.encode ++ encodeAttrs (xs ++ ys) = (a.encode ++ encodeAttrs xs) ++ encodeAttrs ys
    rw [ih, List.append_assoc]

theorem passes_of_known {a : Attr} (h1 : ¬ unknownRequired a.typ)
    (h2 : a.typ = 0x0020 → a.validMapped) : a.passes := by
  by_cases hs : skippable a.typ
  · exact Or.inl hs
  · have ht : a.typ = 0x0020 := by
      by_contra hne
      exact h1 ⟨hs, hne⟩
    exact Or.inr ⟨ht, h2 ht⟩

/-- C2 (the code at the failing inputs). With a valid header, the decoder ends
in a runtime panic, not in an error value, when one byte remains for an
attribute header, when a mapped-address attribute of length 0 ends the buffer,
and when a mapped-address attribute has length 3; only an attribute whose
declared length exceeds the remaining bytes gives "Attribute truncated". -/
theorem extract_panics_on_short_input :
    extractAddressFromBindingResponse
        [0x01, 0x01, 0x00, 0x01, 0x21, 0x12, 0xA4, 0x42, 72, 101, 108, 108, 111, 44, 32, 119,
          111, 114, 108, 100, 0x00] = some .panic ∧
      extractAddressFromBindingResponse
        [0x01, 0x01, 0x00, 0x04, 0x21, 0x12, 0xA4, 0x42, 72, 101, 108, 108, 111, 44, 32, 119,
          111, 114, 108, 100, 0x00, 0x20, 0x00, 0x00] = some .panic ∧
      extractAddressFromBindingResponse
        [0x01, 0x01, 0x00, 0x08, 0x21, 0x12, 0xA4, 0x42, 72, 101, 108, 108, 111, 44, 32, 119,
          111, 114, 108, 100, 0x00, 0x20, 0x00, 0x03, 0x00, 0x03, 0x00, 0x00] = some .panic ∧
      extractAddressFromBindingResponse
        [0x01, 0x01, 0x00, 0x04, 0x21, 0x12, 0xA4, 0x42, 72, 101, 108, 108, 111, 44, 32, 119,
          111, 114, 108, 100, 0x80, 0x22, 0x00, 0x05] = some (.error .attributeTruncated) := by
  decide

/-- C7 (as stated, refuted). The payload is the two well-formed attributes
0x0020 (family 1, length 4) and 0x0001 (unknown, comprehension-required); the
header passes; the decoder returns the IPv4 length error of the first
attribute, not an unknown-attribute error. -/
theorem unknown_required_not_always_reported :
    headerCheck (mkResponse 0x0101 (encodeAttrs
        [{ typ := 0x0020, value := [0x00, 0x01, 0x00, 0x00] }, { typ := 0x0001, value := [] }]))
        = none ∧
      validBytes (mkResponse 0x0101 (encodeAttrs
        [{ typ := 0x0020, value := [0x00, 0x01, 0x00, 0x00] }, { typ := 0x0001, value := [] }])) ∧
      unknownRequired 0x0001 ∧
      extractAddressFromBindingResponse (mkResponse 0x0101 (encodeAttrs
        [{ typ := 0x0020, value := [0x00, 0x01, 0x00, 0x00] }, { typ := 0x0001, value := [] }]))
        = some (.error (.invalidIpv4Length 4)) ∧
      ¬ ∃ t, extractAddressFromBindingResponse (mkResponse 0x0101 (encodeAttrs
        [{ typ := 0x0020, value := [0x00, 0x01, 0x00, 0x00] }, { typ := 0x0001, value := [] }]))
        = some (.error (.unknownAttribute t)) := by
  refine ⟨by decide, by decide, by decide, by decide, ?_⟩
  rintro ⟨t, ht⟩
  have h : extractAddressFromBindingResponse (mkResponse 0x0101 (encodeAttrs
      [{ typ := 0x0020, value := [0x00, 0x01, 0x00, 0x00] }, { typ := 0x0001, value := [] }]))
      = some (.error (.invalidIpv4Length 4)) := by decide
  rw [h] at ht
  simp at ht

/-- C7 (amended). On a response that passes header validation and whose payload
is a sequence of well-formed attributes, if an attribute has an unknown
comprehension-required type, no attribute before it has one, and every
mapped-address attribute before it is valid (length at least 4, exactly 8 for
family 1, exactly 20 for family 2), the decoder returns the
unknown-comprehension-required-attribute error for that type, whatever
follows. -/
theorem unknown_required_attribute_fails (response : List Nat) (pre : List Attr) (u : Attr)
    (post : List Attr) (hheader : headerCheck response = none)
    (hpayload : response.drop 20 = encodeAttrs (pre ++ u :: post))
    (hfirst : ∀ a ∈ pre, ¬ unknownRequired a.typ)
    (hvalid : ∀ a ∈ pre, a.typ = 0x0020 → a.validMapped)
    (hu : unknownRequired u.typ) :
    extractAddressFromBindingResponse response = some (.error (.unknownAttribute u.typ)) := by
  rw [extract_eq_run hheader, hpayload, encodeAttrs_append,
    run_passing _ _ _ _ (fun a ha => passes_of_known (hfirst a ha) (hvalid a ha))]
  simp only [encodeAttrs]
  rw [run_step _ _ _ (encode_length_pos u _), attrStep_encode]
  simp only [hu.1, hu.2, if_false, ne_eq, not_false_eq_true, if_true]

/-- C7 (amended), at a payload with a valid mapped address before and after the
unknown attribute 0x0001. -/
theorem unknown_required_attribute_fails_witness :
    extractAddressFromBindingResponse (mkResponse 0x0101 (encodeAttrs
        ([xorMappedAddress [192, 0, 2, 1] 54321] ++ { typ := 0x0001, value := [7] } ::
          [xorMappedAddress [192, 0, 2, 1] 54321]))) =
      some (.error (.unknownAttribute 0x0001)) :=
  unknown_required_attribute_fails _ [xorMappedAddress [192, 0, 2, 1] 54321]
    { typ := 0x0001, value := [7] } [xorMappedAddress [192, 0, 2, 1] 54321]
    (by decide) (by decide) (by decide) (by decide) (by decide)

/-- C8. Mapped-address length validation: on a response that passes header
validation, once the loop has got past the attributes before it and reaches
a type-0x0020 attribute (whose value lies within the remaining bytes), a
family tag 1 with a length other than 8 gives the IPv4 length error and a
family tag 2 with a length other than 20 gives the IPv6 length error; no
address is returned. -/
theorem mapped_address_length_validation (response : List Nat) (pre : List Attr) (m : Attr)
    (rest : List Nat) (hheader : headerCheck response = none)
    (hpayload : response.drop 20 = encodeAttrs pre ++ m.encode ++ rest)
    (hpre : ∀ a ∈ pre, a.passes) (htyp : m.typ = 0x0020) :
    (m.value[1]? = some 1 → m.value.length ≠ 8 →
        extractAddressFromBindingResponse response =
          some (.error (.invalidIpv4Length m.value.length))) ∧
      (m.value[1]? = some 2 → m.value.length ≠ 20 →
        extractAddressFromBindingResponse response =
          some (.error (.invalidIpv6Length m.value.length))) := by
  have hns : ¬ skippable m.typ := by rw [htyp]; decide
  have htn : ¬ (m.typ ≠ 0x0020) := fun hne => hne htyp
  have hfam : ∀ f, m.value[1]? = some f → (m.value ++ rest)[1]? = some f := by
    intro f hf
    have hlt : 1 < m.value.length := by
      by_contra hge
      rw [List.getElem?_eq_none (by omega)] at hf
      exact absurd hf (by simp)
    rw [List.getElem?_append_left hlt]
    exact hf
  rw [extract_eq_run hheader, hpayload, List.append_assoc, run_passing _ _ _ _ hpre,
    run_step _ _ _ (encode_length_pos m _), attrStep_encode]
  simp only [hns, htn, if_false]
  constructor
  · intro hf hl
    simp only [hfam 1 hf, familyIpv4, hl, ne_eq, not_false_eq_true, if_true]
  · intro hf hl
    simp only [hfam 2 hf, familyIpv4, familyIpv6, hl, ne_eq, not_false_eq_true, if_true]
    rfl

/-- C8, at an IPv4 mapped address of length 12 and at an IPv6 mapped address
of length 8, each after a skipped attribute. -/
theorem mapped_address_length_validation_witness :
    extractAddressFromBindingResponse (mkResponse 0x0101
        (encodeAttrs [{ typ := 0x8022, value := [1, 2, 3] }] ++
          Attr.encode { typ := 0x0020, value := [0, 1, 0xba, 0xff, 1, 2, 3, 4, 5, 6, 7, 8] } ++ []))
        = some (.error (.invalidIpv4Length 12)) ∧
      extractAddressFromBindingResponse (mkResponse 0x0101
        (encodeAttrs [{ typ := 0x8022, value := [1, 2, 3] }] ++
          Attr.encode { typ := 0x0020, value := [0, 2, 0xba, 0xff, 1, 2, 3, 4] } ++ []))
        = some (.error (.invalidIpv6Length 8)) :=
  ⟨(mapped_address_length_validation _ [{ typ := 0x8022, value := [1, 2, 3] }]
      { typ := 0x0020, value := [0, 1, 0xba, 0xff, 1, 2, 3, 4, 5, 6, 7, 8] } []
      (by decide) (by decide) (by decide) rfl).1 (by decide) (by decide),
    (mapped_address_length_validation _ [{ typ := 0x8022, value := [1, 2, 3] }]
      { typ := 0x0020, value := [0, 2, 0xba, 0xff, 1, 2, 3, 4] } []
      (by decide) (by decide) (by decide) rfl).2 (by decide) (by decide)⟩

theorem mappedAddress_short (response payload : List Nat) (attrLen : Nat) (h : attrLen < 4) :
    mappedAddress response payload attrLen = .done .panic := by
  unfold mappedAddress
  cases uint16 (payload.drop 2) with
  | none => rfl
  | some x => simp only [h, if_true]

theorem mappedAddress_withRest (response rest : List Nat) (a : Attr) :
    mappedAddress response (a.value ++ rest) a.value.length =
      (mappedAddress response (a.value ++ []) a.value.length).withRest rest := by
  by_cases h : 4 ≤ a.value.length
  · rw [mappedAddress_encode _ _ _ h, mappedAddress_encode _ _ _ h]
    rfl
  · rw [mappedAddress_short _ _ _ (by omega), mappedAddress_short _ _ _ (by omega)]
    rfl

/-- What the loop body does with an attribute does not depend on the bytes
after it, as long as a mapped-address attribute holds its family byte. -/
theorem attrStep_withRest (response rest : List Nat) (a : Attr) (address : Option UDPAddr)
    (hg : a.typ = 0x0020 → 2 ≤ a.value.length) :
    attrStep response (a.encode ++ rest) address =
      (attrStep response (a.encode ++ []) address).withRest rest := by
  rw [attrStep_encode, attrStep_encode]
  by_cases hs : skippable a.typ
  · simp only [hs, if_true, Step.withRest]
  · by_cases ht : a.typ ≠ 0x0020
    · simp only [hs, ht, if_false, if_true, ne_eq, not_false_eq_true, Step.withRest]
    · have hl : 1 < a.value.length := hg (by simpa using ht)
      have h1 : ∀ r : List Nat, (a.value ++ r)[1]? = some (a.value.getD 1 0) := by
        intro r
        rw [List.getElem?_append_left hl, List.getD_eq_getElem?_getD,
          List.getElem?_eq_getElem hl]
        rfl
      simp only [hs, ht, if_false, h1]
      split_ifs <;> first
        | rfl
        | exact mappedAddress_withRest response rest a

theorem attrStep_congr {r r' : List Nat} (hkey : (r'.take 20).drop 4 = (r.take 20).drop 4)
    (payload : List Nat) (address : Option UDPAddr) :
    attrStep r' payload address = attrStep r payload address := by
  simp only [attrStep, mappedAddress, hkey]

/-- The loop depends on the response only through its bytes 4-19. -/
theorem parseAttributes_congr {r r' : List Nat}
    (hkey : (r'.take 20).drop 4 = (r.take 20).drop 4) :
    ∀ (fuel : Nat) (payload : List Nat) (address : Option UDPAddr),
      parseAttributes r' fuel payload address = parseAttributes r fuel payload address := by
  intro fuel
  induction fuel with
  | zero =>
    intro payload address
    unfold parseAttributes
    rfl
  | succ n ih =>
    intro payload address
    rw [parseAttributes, parseAttributes, attrStep_congr hkey]
    split_ifs
    · cases attrStep r payload address with
      | done o => rfl
      | next payload' address' => exact ih payload' address'
    · rfl

/-- Skipped attributes are inert, the guarded form: inserting an attribute of a
skipped type after a prefix of attributes in which every mapped-address
attribute holds at least its family byte does not change what the loop
returns. -/
theorem run_insert_skippable (r r' : List Nat)
    (hkey : (r'.take 20).drop 4 = (r.take 20).drop 4) (s : Attr) (post : List Nat)
    (hs : skippable s.typ) :
    ∀ (pre : List Attr) (address : Option UDPAddr),
      (∀ a ∈ pre, a.typ = 0x0020 → 2 ≤ a.value.length) →
      run r' (encodeAttrs pre ++ (s.encode ++ post)) address =
        run r (encodeAttrs pre ++ post) address := by
  intro pre
  induction pre with
  | nil =>
    intro address _
    simp only [encodeAttrs, List.nil_append]
    rw [run_step _ _ _ (encode_length_pos s _), attrStep_passes _ _ _ _ (Or.inl hs)]
    simp only [hs, if_true]
    exact parseAttributes_congr hkey _ _ _
  | cons a pre ih =>
    intro address hg
    have ha := hg a (List.mem_cons_self _ _)
    have hpre : ∀ b ∈ pre, b.typ = 0x0020 → 2 ≤ b.value.length :=
      fun b hb => hg b (List.mem_cons_of_mem _ hb)
    simp only [encodeAttrs, List.append_assoc]
    rw [run_step _ _ _ (encode_length_pos a _), run_step _ _ _ (encode_length_pos a _),
      attrStep_withRest r' _ a address ha, attrStep_withRest r _ a address ha,
      attrStep_congr hkey]
    cases attrStep r (a.encode ++ []) address with
    | done o => rfl
    | next payload' address' =>
      simp only [Step.withRest]
      exact ih address' hpre

/-- Skipped attributes are inert, the guarded form on whole responses: when
every mapped-address attribute before the insertion point holds at least its
family byte, inserting a skipped attribute and adjusting the header length
does not change the result of the decoder. -/
theorem extract_insert_skippable (msgType : Nat) (pre : List Attr) (s : Attr) (post : List Nat)
    (ht : msgType &&& 0xc000 = 0) (hs : skippable s.typ)
    (hg : ∀ a ∈ pre, a.typ = 0x0020 → 2 ≤ a.value.length) :
    extractAddressFromBindingResponse (mkResponse msgType (encodeAttrs pre ++ (s.encode ++ post))) =
      extractAddressFromBindingResponse (mkResponse msgType (encodeAttrs pre ++ post)) := by
  rw [extract_eq_run (headerCheck_mkResponse _ _ ht),
    extract_eq_run (headerCheck_mkResponse _ _ ht), mkResponse_drop, mkResponse_drop]
  exact run_insert_skippable _ _ (by rw [mkResponse_key, mkResponse_key]) s post hs pre none hg

/-- C6 (the code at the failing input). The payload is the two well-formed
attributes 0x0020 (length 0) and 0x8001 (length 0); inserting the reserved
attribute 0x0002 (length 0) between them, with the header length raised from
8 to 12, changes the result from the IPv4 length error to the IPv6 length
error: the family byte is read from the bytes after the attribute. With the
0x0020 attribute last, the insertion changes a panic into the IPv6 length
error. The example response of the code comment decodes to 5.18.242.64, port
39917. -/
theorem skipped_attribute_changes_result :
    mkResponse 0x0101 (encodeAttrs
        [{ typ := 0x0020, value := [] }, { typ := 0x8001, value := [] }]) =
        [0x01, 0x01, 0x00, 0x08, 0x21, 0x12, 0xA4, 0x42, 72, 101, 108, 108, 111, 44, 32, 119,
          111, 114, 108, 100, 0x00, 0x20, 0x00, 0x00, 0x80, 0x01, 0x00, 0x00] ∧
      mkResponse 0x0101 (encodeAttrs
        [{ typ := 0x0020, value := [] }, { typ := 0x0002, value := [] },
          { typ := 0x8001, value := [] }]) =
        [0x01, 0x01, 0x00, 0x0c, 0x21, 0x12, 0xA4, 0x42, 72, 101, 108, 108, 111, 44, 32, 119,
          111, 114, 108, 100, 0x00, 0x20, 0x00, 0x00, 0x00, 0x02, 0x00, 0x00,
          0x80, 0x01, 0x00, 0x00] ∧
      skippable 0x0002 ∧
      extractAddressFromBindingResponse
        [0x01, 0x01, 0x00, 0x08, 0x21, 0x12, 0xA4, 0x42, 72, 101, 108, 108, 111, 44, 32, 119,
          111, 114, 108, 100, 0x00, 0x20, 0x00, 0x00, 0x80, 0x01, 0x00, 0x00] =
        some (.error (.invalidIpv4Length 0)) ∧
      extractAddressFromBindingResponse
        [0x01, 0x01, 0x00, 0x0c, 0x21, 0x12, 0xA4, 0x42, 72, 101, 108, 108, 111, 44, 32, 119,
          111, 114, 108, 100, 0x00, 0x20, 0x00, 0x00, 0x00, 0x02, 0x00, 0x00,
          0x80, 0x01, 0x00, 0x00] =
        some (.error (.invalidIpv6Length 0)) ∧
      extractAddressFromBindingResponse
        [0x01, 0x01, 0x00, 0x04, 0x21, 0x12, 0xA4, 0x42, 72, 101, 108, 108, 111, 44, 32, 119,
          111, 114, 108, 100, 0x00, 0x20, 0x00, 0x00] = some .panic ∧
      extractAddressFromBindingResponse
        [0x01, 0x01, 0x00, 0x08, 0x21, 0x12, 0xA4, 0x42, 72, 101, 108, 108, 111, 44, 32, 119,
          111, 114, 108, 100, 0x00, 0x20, 0x00, 0x00, 0x00, 0x02, 0x00, 0x00] =
        some (.error (.invalidIpv6Length 0)) ∧
      extractAddressFromBindingResponse
        [0x01, 0x01, 0x00, 0x4c, 0x21, 0x12, 0xa4, 0x42, 0x48, 0x65, 0x6c, 0x6c, 0x6f, 0x2c,
          0x20, 0x77, 0x6f, 0x72, 0x6c, 0x64, 0x00, 0x04, 0x00, 0x08, 0x00, 0x01, 0x0d, 0x96,
          0x6d, 0x47, 0x68, 0x49, 0x00, 0x05, 0x00, 0x08, 0x00, 0x01, 0x0d, 0x97, 0x6d, 0x47,
          0x68, 0x4c, 0x00, 0x20, 0x00, 0x08, 0x00, 0x01, 0xba, 0xff, 0x24, 0x00, 0x56, 0x02,
          0x80, 0x22, 0x00, 0x24, 0x72, 0x65, 0x54, 0x55, 0x52, 0x4e, 0x53, 0x65, 0x72, 0x76,
          0x65, 0x72, 0x20, 0x31, 0x2e, 0x31, 0x31, 0x2e, 0x30, 0x7e, 0x62, 0x65, 0x74, 0x61,
          0x31, 0x20, 0x28, 0x52, 0x46, 0x43, 0x35, 0x33, 0x38, 0x39, 0x29, 0x20] =
        some (.ok { IP := [5, 18, 242, 64], Port := 39917 }) := by
  refine ⟨by decide, by decide, by decide, by decide, by decide, by decide, by decide, ?_⟩
  decide

/-- The `address` variable after two runs of attributes, one after the other. -/
theorem addressAfter_append (response : List Nat) (xs ys : List Attr)
    (address : Option UDPAddr) :
    addressAfter response (xs ++ ys) address =
      addressAfter response ys (addressAfter response xs address) := by
  simp only [addressAfter, List.foldl_append]

/-- Skipped attributes leave the `address` variable as it is. -/
theorem addressAfter_skippable (response : List Nat) :
    ∀ (attrs : List Attr) (address : Option UDPAddr), (∀ a ∈ attrs, skippable a.typ) →
      addressAfter response attrs address = address := by
  intro attrs
  induction attrs with
  | nil => intro address _; rfl
  | cons a attrs ih =>
    intro address h
    have ha : skippable a.typ := h a (List.mem_cons_self _ _)
    have htail := ih address (fun b hb => h b (List.mem_cons_of_mem _ hb))
    simp only [addressAfter, List.foldl_cons, ha, if_true] at htail ⊢
    exact htail

/-- C11. Several mapped-address attributes: on a response that passes header
validation and whose payload is a sequence of well-formed attributes, all of
them skippable or valid XOR-MAPPED-ADDRESS attributes (length at least 4,
exactly 8 for family 1, exactly 20 for family 2), the decoder succeeds and
returns the address and port decoded from the last 0x0020 attribute, however
many 0x0020 attributes come before it: earlier ones are overwritten and a
repeated attribute is not an error. -/
theorem last_mapped_address_wins (response : List Nat) (pre : List Attr) (m : Attr)
    (post : List Attr) (hheader : headerCheck response = none)
    (hpayload : response.drop 20 = encodeAttrs (pre ++ m :: post))
    (hpre : ∀ a ∈ pre, skippable a.typ ∨ (a.typ = 0x0020 ∧ a.validMapped))
    (hm : m.typ = 0x0020 ∧ m.validMapped)
    (hpost : ∀ a ∈ post, skippable a.typ) :
    extractAddressFromBindingResponse response =
      some (.ok (decodeMapped response m.value)) := by
  have hall : ∀ a ∈ pre ++ m :: post, a.passes := by
    intro a ha
    rcases List.mem_append.1 ha with h | h
    · exact hpre a h
    · rcases List.mem_cons.1 h with rfl | h
      · exact Or.inr hm
      · exact Or.inl (hpost a h)
  have hrun := run_passing response (pre ++ m :: post) [] none hall
  rw [List.append_nil] at hrun
  have hns : ¬ skippable m.typ := by rw [hm.1]; decide
  rw [extract_eq_run hheader, hpayload, hrun, run_nil, addressAfter_append]
  have hcons : addressAfter response (m :: post) (addressAfter response pre none) =
      addressAfter response post (some (decodeMapped response m.value)) := by
    simp only [addressAfter, List.foldl_cons, hns, if_false]
  rw [hcons, addressAfter_skippable response post _ hpost]
  rfl

/-- C11, at a payload with the mapped addresses 192.0.2.1:54321 and
198.51.100.7:1234, a comprehension-optional attribute between them and a
reserved attribute after them: the second address is returned. -/
theorem last_mapped_address_wins_witness :
    extractAddressFromBindingResponse (mkResponse 0x0101 (encodeAttrs
        ([xorMappedAddress [192, 0, 2, 1] 54321, { typ := 0x8022, value := [1, 2, 3] }] ++
          xorMappedAddress [198, 51, 100, 7] 1234 :: [{ typ := 0x0004, value := [] }]))) =
      some (.ok { IP := [198, 51, 100, 7], Port := 1234 }) :=
  (last_mapped_address_wins _
    [xorMappedAddress [192, 0, 2, 1] 54321, { typ := 0x8022, value := [1, 2, 3] }]
    (xorMappedAddress [198, 51, 100, 7] 1234) [{ typ := 0x0004, value := [] }]
    (by decide) (by decide) (by decide) (by decide) (by decide)).trans (by decide)

/-- C12. The decoder ignores the message method and class: two byte buffers
that differ only in the low 14 bits of the first 16-bit word (the low six
bits of byte 0 and byte 1) give the same result; and a message of any type
with the two top bits clear, the request code 0x0001 and the error response
0x0111 among them, that carries a valid XOR-MAPPED-ADDRESS attribute is
accepted and yields its address and port. -/
theorem message_type_ignored :
    (∀ (b0 b1 c0 c1 : Nat) (rest : List Nat), b0 < 256 → b1 < 256 → c0 < 256 → c1 < 256 →
        b0 / 64 = c0 / 64 →
        extractAddressFromBindingResponse (b0 :: b1 :: rest) =
          extractAddressFromBindingResponse (c0 :: c1 :: rest)) ∧
      (∀ (msgType : Nat) (ip : List Nat) (port : Nat), msgType < 16384 →
        (ip.length = 4 ∨ ip.length = 16) →
        extractAddressFromBindingResponse (mkResponse msgType (xorMappedAddress ip port).encode) =
          some (.ok { IP := ip, Port := port })) := by
  constructor
  · intro b0 b1 c0 c1 rest hb0 hb1 hc0 hc1 htop
    have hbits : ((b0 * 256 + b1) &&& 0xc000 = 0) ↔ ((c0 * 256 + c1) &&& 0xc000 = 0) := by
      rw [land_c000_eq_zero_iff _ (by omega), land_c000_eq_zero_iff _ (by omega)]
      omega
    have hkey : (((b0 :: b1 :: rest).take 20).drop 4) = (((c0 :: c1 :: rest).take 20).drop 4) := rfl
    have hcheck : headerCheck (b0 :: b1 :: rest) = headerCheck (c0 :: c1 :: rest) := by
      simp only [headerCheck, List.getD_cons_succ, List.getD_cons_zero, List.length_cons,
        List.drop_succ_cons, ne_eq, hbits]
    rw [extract_eq_headerCheck, extract_eq_headerCheck, hcheck]
    cases headerCheck (c0 :: c1 :: rest) with
    | some e => rfl
    | none => exact parseAttributes_congr hkey _ _ _
  · intro msgType ip port ht hip
    have htop : msgType &&& 0xc000 = 0 := (land_c000_eq_zero_iff msgType (by omega)).2 ht
    rw [extract_eq_run (headerCheck_mkResponse _ _ htop), mkResponse_drop]
    have h := run_passing (mkResponse msgType (xorMappedAddress ip port).encode)
      [xorMappedAddress ip port] [] none
      (fun a ha => by
        rw [List.mem_singleton.1 ha]
        exact xorMappedAddress_passes ip port hip)
    simp only [encodeAttrs, List.append_nil] at h
    rw [h, run_nil]
    have hns : ¬ skippable (xorMappedAddress ip port).typ := by
      show ¬ skippable 0x0020
      decide
    simp only [addressAfter, List.foldl_cons, List.foldl_nil, hns, if_false, finish]
    rw [decodeMapped_xorMappedAddress _ ip port (mkResponse_key _ _) (by omega)]

/-- C12, at the synthetic response for 192.0.2.1:54321 with the first word
0x0101 against 0x3fff, and with the message types 0x0001 and 0x0111. -/
theorem message_type_ignored_witness :
    extractAddressFromBindingResponse
        (0x01 :: 0x01 :: (syntheticResponse [192, 0, 2, 1] 54321).drop 2) =
        extractAddressFromBindingResponse
          (0x3f :: 0xff :: (syntheticResponse [192, 0, 2, 1] 54321).drop 2) ∧
      extractAddressFromBindingResponse
        (mkResponse 0x0001 (xorMappedAddress [192, 0, 2, 1] 54321).encode) =
        some (.ok { IP := [192, 0, 2, 1], Port := 54321 }) ∧
      extractAddressFromBindingResponse
        (mkResponse 0x0111 (xorMappedAddress [192, 0, 2, 1] 54321).encode) =
        some (.ok { IP := [192, 0, 2, 1], Port := 54321 }) :=
  ⟨message_type_ignored.1 0x01 0x01 0x3f 0xff _ (by decide) (by decide) (by decide)
      (by decide) (by decide),
    message_type_ignored.2 0x0001 [192, 0, 2, 1] 54321 (by decide) (Or.inl rfl),
    message_type_ignored.2 0x0111 [192, 0, 2, 1] 54321 (by decide) (Or.inl rfl)⟩


end Stun

namespace Common

/-! ## Theorems about `GetMyPublicEndpoint` -/

theorem selectLoop_retries (ipString : List Nat → String) :
    ∀ (n r s : Nat), r ≤ 4 →
      selectLoop ipString { retries := r, sends := s } (List.replicate n (.retry none)) =
        if r + n ≤ 4 then .waiting { retries := r + n, sends := s + n }
        else .failed (.noResponse 4) (s + (4 - r)) := by
  intro n
  induction n with
  | zero =>
    intro r s hr
    simp [selectLoop, hr]
  | succ n ih =>
    intro r s hr
    rw [List.replicate_succ, selectLoop]
    by_cases h4 : r = 4
    · subst h4
      simp [selectStep, maxRetries]
    · have hr' : r + 1 ≤ 4 := by omega
      simp only [selectStep, maxRetries, h4, if_false]
      rw [ih (r + 1) (s + 1) hr']
      have e1 : r + 1 + n = r + (n + 1) := by omega
      have e2 : s + 1 + n = s + (n + 1) := by omega
      have e3 : s + 1 + (4 - (r + 1)) = s + (4 - r) := by omega
      rw [e1, e2, e3]

/-- C9. Retry budget of `GetMyPublicEndpoint` (`maxRetries = 4`): when the
first send and every later send succeed and only the retry timer fires, after
`n` timer fires with `n < 5` the call is still waiting, with `n` retries and
`n + 1` sends made; from the fifth timer fire on it has failed with "No
response from server after 4 retries", after exactly 5 sends, and returned no
endpoint. -/
theorem retry_budget (ipString : List Nat → String) (n : Nat) :
    GetMyPublicEndpoint ipString none (List.replicate n (.retry none)) =
      if n < 5 then .waiting { retries := n, sends := n + 1 }
      else .failed (.noResponse 4) 5 := by
  unfold GetMyPublicEndpoint
  rw [selectLoop_retries ipString n 0 1 (by omega)]
  by_cases h : n < 5
  · have h' : 0 + n ≤ 4 := by omega
    rw [if_pos h, if_pos h', Nat.zero_add, Nat.add_comm 1 n]
  · have h' : ¬ 0 + n ≤ 4 := by omega
    rw [if_neg h, if_neg h']

end Common

namespace Client

/-! ## Theorems about the polling loop of the initiator -/

open Common

theorem handleUpdate_skip_iff (unmarshal : String → Option HubMessage) (chatId : Int)
    (serial : Nat) (upd : Update) :
    handleUpdate unmarshal chatId serial upd = .skip ↔
      irrelevant unmarshal chatId serial upd := by
  unfold handleUpdate irrelevant
  cases hp : upd.ChannelPost with
  | none => simp
  | some post =>
    by_cases hc : post.Chat.Id = chatId
    · cases hx : post.Text with
      | none => simp [hc, hx]
      | some text =>
        cases hm : unmarshal text with
        | none => simp [hc, hx, hm]
        | some msg =>
          by_cases ht : msg.Type_ = "start_punching_response"
          · by_cases hs : msg.Serial = serial
            · cases he : msg.PublicEndpoint <;> simp [hc, hx, hm, ht, hs, he]
            · simp [hc, hx, hm, ht, hs]
          · simp [hc, hx, hm, ht]
    · simp [hc]

theorem handleUpdate_accept {unmarshal : String → Option HubMessage} {chatId : Int}
    {serial : Nat} {upd : Update} {endpoint : Endpoint}
    (h : answers unmarshal chatId serial upd endpoint) :
    handleUpdate unmarshal chatId serial upd = .accept endpoint := by
  obtain ⟨post, hpost, hc, text, htext, msg, hmsg, ht, hs, he⟩ := h
  rw [Option.mem_def] at hpost htext hmsg
  simp [handleUpdate, hpost, hc, htext, hmsg, ht, hs, he]

theorem rangeUpdates_skip {unmarshal : String → Option HubMessage} {chatId : Int}
    {serial : Nat} :
    ∀ {updates : List Update}, (∀ u ∈ updates, irrelevant unmarshal chatId serial u) →
      rangeUpdates unmarshal chatId serial updates = .skip := by
  intro updates
  induction updates with
  | nil => intro _; rfl
  | cons u us ih =>
    intro h
    have hu := (handleUpdate_skip_iff unmarshal chatId serial u).2 (h u (List.mem_cons_self _ _))
    rw [rangeUpdates, hu]
    exact ih (fun v hv => h v (List.mem_cons_of_mem _ hv))

theorem rangeUpdates_first {unmarshal : String → Option HubMessage} {chatId : Int}
    {serial : Nat} {u : Update} {post : List Update} {endpoint : Endpoint}
    (hu : answers unmarshal chatId serial u endpoint) :
    ∀ {pre : List Update}, (∀ p ∈ pre, irrelevant unmarshal chatId serial p) →
      rangeUpdates unmarshal chatId serial (pre ++ u :: post) = .accept endpoint := by
  intro pre
  induction pre with
  | nil =>
    intro _
    rw [List.nil_append, rangeUpdates, handleUpdate_accept hu]
  | cons p ps ih =>
    intro h
    have hp := (handleUpdate_skip_iff unmarshal chatId serial p).2 (h p (List.mem_cons_self _ _))
    rw [List.cons_append, rangeUpdates, hp]
    exact ih (fun v hv => h v (List.mem_cons_of_mem _ hv))

theorem le_getLast_of_pairwise :
    ∀ (updates : List Update) (last : Update),
      updates.Pairwise (fun a b => a.Id ≤ b.Id) → updates.getLast? = some last →
      ∀ u ∈ updates, u.Id ≤ last.Id := by
  intro updates
  induction updates with
  | nil => intro last _ h; simp at h
  | cons a us ih =>
    intro last hp hl u hu
    rw [List.pairwise_cons] at hp
    cases us with
    | nil =>
      simp only [List.getLast?_singleton, Option.some.injEq] at hl
      simp only [List.mem_singleton] at hu
      rw [hu, hl]
    | cons b us' =>
      rw [List.getLast?_cons_cons] at hl
      have hmem : last ∈ b :: us' := List.mem_of_getLast?_eq_some hl
      rcases List.mem_cons.1 hu with rfl | hu'
      · exact hp.1 last hmem
      · exact ih last hp.2 hl u hu'

/-- An entry that passes all the checks and carries no endpoint ends the loop
body in the nil dereference of `*msg.PublicEndpoint`. -/
theorem handleUpdate_crash {unmarshal : String → Option HubMessage} {chatId : Int}
    {serial : Nat} {upd : Update}
    (h : answersWithoutEndpoint unmarshal chatId serial upd) :
    handleUpdate unmarshal chatId serial upd = .crash := by
  obtain ⟨post, hpost, hc, text, htext, msg, hmsg, ht, hs, he⟩ := h
  rw [Option.mem_def] at hpost htext hmsg
  simp [handleUpdate, hpost, hc, htext, hmsg, ht, hs, he]

/-- The range loop stops at the first entry that is not skipped. -/
theorem rangeUpdates_reach {unmarshal : String → Option HubMessage} {chatId : Int}
    {serial : Nat} {u : Update} {post : List Update}
    (hu : handleUpdate unmarshal chatId serial u ≠ .skip) :
    ∀ {pre : List Update}, (∀ p ∈ pre, irrelevant unmarshal chatId serial p) →
      rangeUpdates unmarshal chatId serial (pre ++ u :: post) =
        handleUpdate unmarshal chatId serial u := by
  intro pre
  induction pre with
  | nil =>
    intro _
    rw [List.nil_append, rangeUpdates]
    cases hh : handleUpdate unmarshal chatId serial u with
    | skip => exact absurd hh hu
    | accept e => rfl
    | crash => rfl
  | cons p ps ih =>
    intro h
    have hp := (handleUpdate_skip_iff unmarshal chatId serial p).2 (h p (List.mem_cons_self _ _))
    rw [List.cons_append, rangeUpdates, hp]
    exact ih (fun v hv => h v (List.mem_cons_of_mem _ hv))

/-- When the first entry of a batch that passes all the checks carries no
endpoint, the process ends in a runtime panic, whatever follows in the batch;
the cursor is as it stood before the batch. -/
theorem pollOnce_crashes_without_endpoint (unmarshal : String → Option HubMessage)
    (chatId : Int) (serial : Nat) (updateOffset : Int) (pre : List Update) (u : Update)
    (post : List Update) (hpre : ∀ p ∈ pre, irrelevant unmarshal chatId serial p)
    (hu : answersWithoutEndpoint unmarshal chatId serial u) :
    pollOnce unmarshal chatId serial updateOffset (pre ++ u :: post) = .crashed updateOffset := by
  have hc := handleUpdate_crash hu
  have hne : handleUpdate unmarshal chatId serial u ≠ .skip := by rw [hc]; simp
  unfold pollOnce
  rw [rangeUpdates_reach hne hpre, hc]

/-- C10 (amended). For every batch, every serial and every cursor: an entry is
skipped, and the loop goes on, exactly when it has no channel post, or comes
from another chat, or has no text, or does not parse as a handshake message,
or is not of type `start_punching_response`, or carries another serial; when
every entry of the batch is skipped, the cursor becomes the identifier of the
last entry, which is the highest of the batch when the batch is ordered (an
empty batch leaves the cursor as it is); when the first entry of the batch
that passes all the checks carries an endpoint, the initiator reports that
endpoint and exits at once, with the cursor as it stood before the batch. -/
theorem initiator_matching (unmarshal : String → Option HubMessage) (chatId : Int)
    (serial : Nat) (updateOffset : Int) (updates : List Update) :
    (∀ u : Update, handleUpdate unmarshal chatId serial u = .skip ↔
        irrelevant unmarshal chatId serial u) ∧
      ((∀ u ∈ updates, irrelevant unmarshal chatId serial u) →
        pollOnce unmarshal chatId serial updateOffset updates =
          .next (cursorAfter updateOffset updates) ∧
        (updates.Pairwise (fun a b => a.Id ≤ b.Id) →
          ∀ u ∈ updates, u.Id ≤ cursorAfter updateOffset updates)) ∧
      (∀ (pre : List Update) (u : Update) (post : List Update) (endpoint : Endpoint),
        updates = pre ++ u :: post → (∀ p ∈ pre, irrelevant unmarshal chatId serial p) →
        answers unmarshal chatId serial u endpoint →
        pollOnce unmarshal chatId serial updateOffset updates = .exited endpoint updateOffset) := by
  refine ⟨handleUpdate_skip_iff unmarshal chatId serial, ?_, ?_⟩
  · intro h
    constructor
    · unfold pollOnce cursorAfter
      rw [rangeUpdates_skip h]
      cases updates.getLast? <;> rfl
    · intro hp u hu
      unfold cursorAfter
      cases hl : updates.getLast? with
      | none =>
        rw [List.getLast?_eq_none_iff] at hl
        rw [hl] at hu
        simp at hu
      | some last => exact le_getLast_of_pairwise updates last hp hl u hu
  · intro pre u post endpoint hupd hpre hu
    unfold pollOnce
    rw [hupd, rangeUpdates_first hu hpre]

/-- C10, at the example batch: with the serial 42 the first two entries are
skipped, the third is accepted, and the cursor still is the one from before
the batch; with the serial 43 nothing matches and the cursor becomes 3, the
highest identifier of the batch; a matching response with the port -1 is
accepted like any other. -/
theorem initiator_matching_witness :
    pollOnce exampleUnmarshal 5 42 0 exampleBatch =
        .exited { Address := "203.0.113.42", Port := 4242 } 0 ∧
      pollOnce exampleUnmarshal 5 43 0 exampleBatch = .next (cursorAfter 0 exampleBatch) ∧
      (∀ u ∈ exampleBatch, u.Id ≤ cursorAfter 0 exampleBatch) ∧
      cursorAfter 0 exampleBatch = 3 ∧
      pollOnce exampleUnmarshal 5 42 0
          [{ Id := 4, ChannelPost := some { Chat := { Id := 5 }, Text := some "r42neg" } }] =
        .exited { Address := "203.0.113.42", Port := -1 } 0 :=
  ⟨(initiator_matching exampleUnmarshal 5 42 0 exampleBatch).2.2
      (exampleBatch.take 2)
      { Id := 3, ChannelPost := some { Chat := { Id := 5 }, Text := some "r42" } } []
      { Address := "203.0.113.42", Port := 4242 } (by decide) (by decide) (by decide),
    ((initiator_matching exampleUnmarshal 5 43 0 exampleBatch).2.1 (by decide)).1,
    ((initiator_matching exampleUnmarshal 5 43 0 exampleBatch).2.1 (by decide)).2 (by decide),
    by decide,
    (initiator_matching exampleUnmarshal 5 42 0
        [{ Id := 4, ChannelPost := some { Chat := { Id := 5 }, Text := some "r42neg" } }]).2.2
      [] { Id := 4, ChannelPost := some { Chat := { Id := 5 }, Text := some "r42neg" } } []
      { Address := "203.0.113.42", Port := -1 } (by decide) (by decide) (by decide)⟩

/-- C10 (as stated, refuted). On the example batch with the serial 42 the third
entry is accepted and the process exits; the cursor is not advanced to 3, the
highest identifier of the batch, but stays 0. On a batch whose first entry
passes all the checks and carries no endpoint, that entry is not accepted and
no endpoint is reported: the process ends in a runtime panic, also when an
entry with an endpoint follows. -/
theorem cursor_not_advanced_on_match :
    pollOnce exampleUnmarshal 5 42 0 exampleBatch =
        .exited { Address := "203.0.113.42", Port := 4242 } 0 ∧
      (∀ u ∈ exampleBatch, u.Id ≤ 3) ∧
      pollOnce exampleUnmarshal 5 42 0 exampleBatch ≠ .next 3 ∧
      (∀ endpoint, pollOnce exampleUnmarshal 5 42 0 exampleBatch ≠ .exited endpoint 3) ∧
      pollOnce exampleUnmarshal 5 42 0
          [{ Id := 1, ChannelPost := some { Chat := { Id := 5 }, Text := some "r42null" } },
           { Id := 2, ChannelPost := some { Chat := { Id := 5 }, Text := some "r42" } }] =
        .crashed 0 := by
  refine ⟨by decide, by decide, by decide, ?_, by decide⟩
  intro endpoint h
  have h0 : pollOnce exampleUnmarshal 5 42 0 exampleBatch =
      .exited { Address := "203.0.113.42", Port := 4242 } 0 := by decide
  rw [h0] at h
  simp at h

end Client
